import Mathlib

/-!
Shallow embedding of the binance-api market-statistics program (`src/main.py`).

Python `Decimal` values are modelled exactly as coefficient/scale pairs
(`PyDecimal`, value = `coeff / 10 ^ scale`), with the exact arithmetic Python's
`decimal` module performs on them (multiplication adds exponents, addition and
subtraction align to the smaller exponent; all operations here stay far below
the default 28-significant-digit context, so no rounding occurs).  The
`toRat` lemmas below prove this arithmetic agrees with exact rational
arithmetic.  Python functions that can raise are modelled in `Option` or
`Except`.  The HTTP gateway is an explicit argument (the order-book lookup,
the ticker list, ...), so every function here is a pure function of the data
the program would have fetched.
-/

/-- A Python `Decimal` in fixed-point form: the represented number is
`coeff / 10 ^ scale`.  `Decimal("123.456")` is `⟨123456, 3⟩`.  String
conversion of the literals this program meets (plain fixed-point decimal
strings) always produces a non-positive exponent, hence `scale : Nat`. -/
structure PyDecimal where
  coeff : Int
  scale : Nat
deriving DecidableEq

/-- The exact rational value of a `PyDecimal`. -/
def PyDecimal.toRat (d : PyDecimal) : ℚ :=
  (d.coeff : ℚ) / (10 : ℚ) ^ d.scale

/-- `Decimal` multiplication: coefficients multiply, exponents add (exact). -/
def PyDecimal.mul (a b : PyDecimal) : PyDecimal :=
  ⟨a.coeff * b.coeff, a.scale + b.scale⟩

/-- `Decimal` addition: align both operands to the larger scale (exact). -/
def PyDecimal.add (a b : PyDecimal) : PyDecimal :=
  ⟨a.coeff * 10 ^ (max a.scale b.scale - a.scale) +
     b.coeff * 10 ^ (max a.scale b.scale - b.scale),
   max a.scale b.scale⟩

/-- `Decimal` subtraction: align both operands to the larger scale (exact). -/
def PyDecimal.sub (a b : PyDecimal) : PyDecimal :=
  ⟨a.coeff * 10 ^ (max a.scale b.scale - a.scale) -
     b.coeff * 10 ^ (max a.scale b.scale - b.scale),
   max a.scale b.scale⟩

/-- Python `abs` on a `Decimal`: absolute value, same exponent. -/
def PyDecimal.abs (d : PyDecimal) : PyDecimal :=
  ⟨|d.coeff|, d.scale⟩

/-- The numeric order on `Decimal`s (Python `<=`): compare coefficients at a
common scale. -/
def PyDecimal.le (a b : PyDecimal) : Prop :=
  a.coeff * 10 ^ (max a.scale b.scale - a.scale) ≤
    b.coeff * 10 ^ (max a.scale b.scale - b.scale)

instance : DecidableRel PyDecimal.le :=
  fun a b =>
    Int.decLe (a.coeff * 10 ^ (max a.scale b.scale - a.scale))
      (b.coeff * 10 ^ (max a.scale b.scale - b.scale))

/-- Accumulate a decimal digit string; any non-digit character is an error
(Python: `decimal.InvalidOperation`). -/
def digitsToNatAux : Nat → List Char → Option Nat
  | acc, [] => some acc
  | acc, c :: cs =>
      if c.isDigit then digitsToNatAux (acc * 10 + (c.toNat - 48)) cs
      else none

/-- Split a character list at the first decimal point, if any. -/
def splitAtDot : List Char → List Char × Option (List Char)
  | [] => ([], none)
  | c :: cs =>
      if c = '.' then ([], some cs)
      else
        let r := splitAtDot cs
        (c :: r.1, r.2)

/-- `Decimal(s)` string conversion for plain fixed-point literals
(`"123"`, `"123.456"`, `".5"`, optional leading minus); `none` models the
`InvalidOperation` raised on malformed input. -/
def PyDecimal.ofString (s : String) : Option PyDecimal :=
  let cs := s.data
  let neg : Bool := match cs with
    | '-' :: _ => true
    | _ => false
  let cs := match cs with
    | '-' :: rest => rest
    | l => l
  let sign : Int := if neg then -1 else 1
  match splitAtDot cs with
  | (ip, none) =>
      if ip.isEmpty then none
      else (digitsToNatAux 0 ip).map fun n => ⟨sign * (n : Int), 0⟩
  | (ip, some fp) =>
      if ip.isEmpty && fp.isEmpty then none
      else
        (digitsToNatAux 0 ip).bind fun i =>
          (digitsToNatAux 0 fp).map fun f =>
            ⟨sign * ((i * 10 ^ fp.length + f : Nat) : Int), fp.length⟩

/-- Python `"{value:f}".format(value=d)` for a `Decimal`: fixed-point
rendering that keeps exactly `scale` fractional digits (no exponent, no
padding to six places - that is `float` behaviour, not `Decimal`). -/
def PyDecimal.formatF (d : PyDecimal) : String :=
  let ds := Nat.toDigits 10 d.coeff.natAbs
  let ds := if ds.length ≤ d.scale then List.replicate (d.scale + 1 - ds.length) '0' ++ ds else ds
  let body :=
    if d.scale = 0 then ds
    else ds.take (ds.length - d.scale) ++ '.' :: ds.drop (ds.length - d.scale)
  String.mk (if d.coeff < 0 then '-' :: body else body)

/-- One symbol entry of the `exchangeInfo` metadata. -/
structure ExchangeInfoSymbol where
  symbol : String
  quoteAsset : String
deriving DecidableEq

/-- One 24h-ticker record: the symbol plus the remaining string-valued JSON
fields as a key/value list. -/
structure Ticker where
  symbol : String
  fields : List (String × String)
deriving DecidableEq

/-- Python dict lookup `ticker[key]` on the non-symbol fields; `none` models
the `KeyError` raised when the key is absent. -/
def Ticker.getField (t : Ticker) (key : String) : Option String :=
  (t.fields.find? (fun kv => kv.1 == key)).map (fun kv => kv.2)

/-- A ranking-transform output row (`{"symbol": ..., "value": ...}`). -/
structure RankedSymbol where
  symbol : String
  value : PyDecimal
deriving DecidableEq

/-- `get_symbols_by_quote_asset` (src/main.py line 116): filter the exchange
metadata by quote asset. -/
def get_symbols_by_quote_asset
    (exchange_info : List ExchangeInfoSymbol) (quote_asset : String) :
    List ExchangeInfoSymbol :=
  exchange_info.filter (fun x => x.quoteAsset == quote_asset)

/-- The `for ticker in get_24h_ticker()` accumulation loop of
`get_top_symbols_by_quote_asset_by` (src/main.py lines 140-150): skip
tickers outside `symbols_names`; for the rest look up `ticker[top_by]` and
cast it with the default `cast_top_by_to=Decimal`.  A missing field
(`KeyError`) or a malformed literal aborts the whole call. -/
def collectTopByValues (symbols_names : List String) (top_by : String) :
    List Ticker → Option (List RankedSymbol)
  | [] => some []
  | ticker :: rest =>
      if symbols_names.contains ticker.symbol then
        match (ticker.getField top_by).bind PyDecimal.ofString with
        | none => none
        | some v =>
            (collectTopByValues symbols_names top_by rest).map
              (fun tl => { symbol := ticker.symbol, value := v } :: tl)
      else collectTopByValues symbols_names top_by rest

/-- The ordering used by `sorted(..., key=itemgetter("value"), reverse=True)`
on ranked symbols: `a` may precede `b` when `b.value ≤ a.value` numerically.
An insertion sort along this relation is exactly a stable descending sort,
which is what CPython's stable `sorted` with `reverse=True` produces. -/
def rankDesc (a b : RankedSymbol) : Prop :=
  PyDecimal.le b.value a.value

instance : DecidableRel rankDesc :=
  fun a b => inferInstanceAs (Decidable (PyDecimal.le b.value a.value))

/-- `get_top_symbols_by_quote_asset_by` (src/main.py lines 126-157): filter
the 24h tickers to the quote asset's symbols, cast the chosen field to
`Decimal`, sort stably by value descending, truncate to `top`.  The
`{"data": ...}` dict wrapper is dropped; the payload list is returned. -/
def get_top_symbols_by_quote_asset_by
    (exchange_info : List ExchangeInfoSymbol) (tickers : List Ticker)
    (quote_asset : String) (top : Nat) (top_by : String) :
    Option (List RankedSymbol) :=
  let symbols_names :=
    (get_symbols_by_quote_asset exchange_info quote_asset).map (fun x => x.symbol)
  (collectTopByValues symbols_names top_by tickers).map
    (fun symbols_with_top_by_value =>
      (symbols_with_top_by_value.insertionSort rankDesc).take top)

/-- An order-book snapshot as returned by the `depth` endpoint: each side is
a list of `(price, quantity)` string pairs. -/
structure OrderBook where
  asks : List (String × String)
  bids : List (String × String)

/-- A notional-value output row (`{"symbol": ..., "type": ..., "value": ...}`). -/
structure NotionalEntry where
  symbol : String
  type : String
  value : PyDecimal
deriving DecidableEq

/-- `cast_orders_tuple_to_decimal` (src/main.py line 179): cast both members
of a `(price, qty)` pair with `Decimal`. -/
def cast_orders_tuple_to_decimal (x : String × String) :
    Option (PyDecimal × PyDecimal) :=
  (PyDecimal.ofString x.1).bind fun p =>
    (PyDecimal.ofString x.2).map fun q => (p, q)

/-- The ordering used by `sorted(..., key=itemgetter(0), reverse=True)` on
`(price, qty)` pairs: stable descending by price. -/
def priceDesc (a b : PyDecimal × PyDecimal) : Prop :=
  PyDecimal.le b.1 a.1

instance : DecidableRel priceDesc :=
  fun a b => inferInstanceAs (Decidable (PyDecimal.le b.1 a.1))

/-- `sort_orders_by_price` (src/main.py lines 184-186): sort by price
descending (stable) and keep the first 200 entries. -/
def sort_orders_by_price (x : List (PyDecimal × PyDecimal)) :
    List (PyDecimal × PyDecimal) :=
  (x.insertionSort priceDesc).take 200

/-- `count_notional_value` (src/main.py line 191): `sum` of price × quantity,
starting from Python's integer `0` (= `Decimal` coefficient 0, scale 0). -/
def count_notional_value (order : List (PyDecimal × PyDecimal)) : PyDecimal :=
  (order.map (fun x => PyDecimal.mul x.1 x.2)).foldl PyDecimal.add ⟨0, 0⟩

/-- `get_top_total_notional_value_by_symbols` (src/main.py lines 169-199).
The order-book gateway is an explicit argument.  Both the line-180 and the
line-181 casts read `order_book["asks"]`, and line 188 derives `bids` by
re-sorting the already sorted-and-capped `asks` - exactly as the source
does.  Two entries per symbol, the `bid` entry first. -/
def get_top_total_notional_value_by_symbols
    (get_order_book : String → OrderBook) (symbols : List String) :
    Option (List NotionalEntry) :=
  (symbols.mapM (fun symbol =>
    let order_book := get_order_book symbol
    (order_book.asks.mapM cast_orders_tuple_to_decimal).bind fun asks0 =>
      (order_book.asks.mapM cast_orders_tuple_to_decimal).map fun _bids0 =>
        let asks := sort_orders_by_price asks0
        let bids := sort_orders_by_price asks
        [{ symbol := symbol, type := "bid", value := count_notional_value bids },
         { symbol := symbol, type := "ask", value := count_notional_value asks }])).map
    (fun l => l.flatten)

/-- One record of the `ticker/bookTicker` endpoint. -/
structure BookTickerRecord where
  symbol : String
  bidPrice : String
  askPrice : String
deriving DecidableEq

/-- A spread observation (`{"symbol": ..., "value": ...}`, with the `delta`
key added later by the polling loop). -/
structure SpreadObservation where
  symbol : String
  value : PyDecimal
  delta : Option PyDecimal
deriving DecidableEq

/-- The body of the list comprehension in `get_price_spread_by_symbols`
(src/main.py lines 210-216): `Decimal(askPrice) - Decimal(bidPrice)`. -/
def spread_entry (x : BookTickerRecord) : Option SpreadObservation :=
  (PyDecimal.ofString x.askPrice).bind fun a =>
    (PyDecimal.ofString x.bidPrice).map fun b =>
      { symbol := x.symbol, value := PyDecimal.sub a b, delta := none }

/-- `get_price_spread_by_symbols` (src/main.py lines 202-217): filter the
book-ticker records to the requested symbols, then map each to its spread
observation.  The `{"data": ...}` wrapper is dropped. -/
def get_price_spread_by_symbols
    (book_ticker : List BookTickerRecord) (symbols : List String) :
    Option (List SpreadObservation) :=
  let filtered_symbols_book_ticker :=
    book_ticker.filter (fun x => symbols.contains x.symbol)
  filtered_symbols_book_ticker.mapM spread_entry

/-- The delta pass of the polling loop (src/main.py lines 292-297):
`for i in range(len(current)): delta = abs(current[i].value - previous[i].value)`.
Indexing `previous` past its end is an `IndexError`, modelled as `none`. -/
def main_delta_step :
    List SpreadObservation → List SpreadObservation → Option (List SpreadObservation)
  | [], _ => some []
  | _ :: _, [] => none
  | c :: cs, p :: ps =>
      (main_delta_step cs ps).map fun rest =>
        { c with delta := some (PyDecimal.abs (PyDecimal.sub c.value p.value)) } :: rest

/-- Python `"{symbol: <9}".format(symbol=s)`: left-align, pad with spaces to
width 9. -/
def formatAlign9 (s : String) : String :=
  if s.length < 9 then s ++ String.mk (List.replicate (9 - s.length) ' ') else s

/-- One line of `print_formatted_data` in the plain (ranking/spread) mode
(src/main.py lines 238-246): the source formats `symbol["symbol"] + ":"`
into the width-9 field, and `print(a, b)` joins its two arguments with a
single space. -/
def print_formatted_plain_line (symbol : String) (value : PyDecimal) : String :=
  formatAlign9 (symbol ++ ":") ++ " " ++ value.formatF

/-- An HTTP response as `safe_request` sees it: the final status code and
the result of `response.json()` (`none` when the body is not valid JSON). -/
structure HttpResponse (α : Type) where
  status : Nat
  jsonBody : Option α

/-- `requests.Response.raise_for_status` raises exactly for 4xx and 5xx
status codes (1xx/2xx/3xx do not raise). -/
def raise_for_status_raises (status : Nat) : Bool :=
  400 ≤ status && status < 600

/-- `safe_request` (src/main.py lines 63-73): re-raise on an HTTP error
status (the source's `raise f"..."` is itself a `TypeError`, but the call
still fails), otherwise return the parsed JSON body; a body that is not
valid JSON is also an error. -/
def safe_request {α : Type} (response : HttpResponse α) : Except String α :=
  if raise_for_status_raises response.status then
    Except.error "Error while requesting"
  else
    match response.jsonBody with
    | some body => Except.ok body
    | none => Except.error "invalid JSON body"

theorem PyDecimal.toRat_scaled (d : PyDecimal) {m : Nat} (h : d.scale ≤ m) :
    d.toRat = ((d.coeff * 10 ^ (m - d.scale) : ℤ) : ℚ) / (10 : ℚ) ^ m := by
  unfold PyDecimal.toRat
  push_cast
  rw [div_eq_div_iff (by positivity) (by positivity), mul_assoc, ← pow_add,
    Nat.sub_add_cancel h]

theorem PyDecimal.le_iff_toRat (a b : PyDecimal) :
    PyDecimal.le a b ↔ a.toRat ≤ b.toRat := by
  rw [a.toRat_scaled (le_max_left a.scale b.scale),
    b.toRat_scaled (le_max_right a.scale b.scale),
    div_le_div_iff_of_pos_right (by positivity)]
  unfold PyDecimal.le
  exact_mod_cast Iff.rfl

theorem PyDecimal.toRat_mul (a b : PyDecimal) :
    (PyDecimal.mul a b).toRat = a.toRat * b.toRat := by
  unfold PyDecimal.mul PyDecimal.toRat
  push_cast
  rw [pow_add, div_mul_div_comm]

theorem PyDecimal.toRat_add (a b : PyDecimal) :
    (PyDecimal.add a b).toRat = a.toRat + b.toRat := by
  rw [a.toRat_scaled (le_max_left a.scale b.scale),
    b.toRat_scaled (le_max_right a.scale b.scale)]
  unfold PyDecimal.add PyDecimal.toRat
  push_cast
  rw [add_div]

theorem PyDecimal.toRat_sub (a b : PyDecimal) :
    (PyDecimal.sub a b).toRat = a.toRat - b.toRat := by
  rw [a.toRat_scaled (le_max_left a.scale b.scale),
    b.toRat_scaled (le_max_right a.scale b.scale)]
  unfold PyDecimal.sub PyDecimal.toRat
  push_cast
  rw [sub_div]

theorem PyDecimal.toRat_abs (d : PyDecimal) :
    (PyDecimal.abs d).toRat = |d.toRat| := by
  unfold PyDecimal.abs PyDecimal.toRat
  rw [abs_div, abs_pow]
  push_cast
  norm_num

instance : IsTotal RankedSymbol rankDesc :=
  ⟨fun a b => by
    unfold rankDesc
    rw [PyDecimal.le_iff_toRat, PyDecimal.le_iff_toRat]
    exact le_total _ _⟩

instance : IsTrans RankedSymbol rankDesc :=
  ⟨fun a b c h1 h2 => by
    unfold rankDesc at *
    rw [PyDecimal.le_iff_toRat] at *
    exact le_trans h2 h1⟩

instance : IsTotal (PyDecimal × PyDecimal) priceDesc :=
  ⟨fun a b => by
    unfold priceDesc
    rw [PyDecimal.le_iff_toRat, PyDecimal.le_iff_toRat]
    exact le_total _ _⟩

instance : IsTrans (PyDecimal × PyDecimal) priceDesc :=
  ⟨fun a b c h1 h2 => by
    unfold priceDesc at *
    rw [PyDecimal.le_iff_toRat] at *
    exact le_trans h2 h1⟩

theorem filter_orderedInsert_pos {α : Type} (r : α → α → Prop) [DecidableRel r]
    (p : α → Bool) (x : α) (hx : p x = true)
    (hxy : ∀ y, p y = true → r x y) :
    ∀ l : List α, (l.orderedInsert r x).filter p = x :: l.filter p
  | [] => by simp [List.orderedInsert, hx]
  | y :: ys => by
      by_cases h : r x y
      · simp [List.orderedInsert, h, List.filter_cons, hx]
      · have hpy : p y = false := by
          cases hy : p y
          · rfl
          · exact absurd (hxy y hy) h
        simp only [List.orderedInsert, if_neg h, List.filter_cons, hpy,
          Bool.false_eq_true, if_false, filter_orderedInsert_pos r p x hx hxy ys]

theorem filter_orderedInsert_neg {α : Type} (r : α → α → Prop) [DecidableRel r]
    (p : α → Bool) (x : α) (hx : p x = false) :
    ∀ l : List α, (l.orderedInsert r x).filter p = l.filter p
  | [] => by simp [List.orderedInsert, hx]
  | y :: ys => by
      by_cases h : r x y
      · simp [List.orderedInsert, h, List.filter_cons, hx]
      · simp only [List.orderedInsert, if_neg h, List.filter_cons,
          filter_orderedInsert_neg r p x hx ys]

theorem filter_insertionSort_of_key {α : Type} (r : α → α → Prop) [DecidableRel r]
    (p : α → Bool) (hp : ∀ x y, p x = true → p y = true → r x y) :
    ∀ l : List α, (l.insertionSort r).filter p = l.filter p
  | [] => rfl
  | a :: l => by
      rw [List.insertionSort]
      cases ha : p a
      · rw [filter_orderedInsert_neg r p a ha, filter_insertionSort_of_key r p hp l]
        simp [List.filter_cons, ha]
      · rw [filter_orderedInsert_pos r p a ha (fun y hy => hp a y ha hy),
          filter_insertionSort_of_key r p hp l]
        simp [List.filter_cons, ha]

theorem isPrefix_filter {α : Type} (p : α → Bool) {l₁ l₂ : List α}
    (h : l₁ <+: l₂) : l₁.filter p <+: l₂.filter p := by
  obtain ⟨t, rfl⟩ := h
  exact ⟨t.filter p, (List.filter_append _ _).symm⟩

theorem take_isPrefixOf {α : Type} (n : Nat) (l : List α) : l.take n <+: l :=
  ⟨l.drop n, List.take_append_drop n l⟩

theorem mapM_option_spec {α β : Type} (f : α → Option β) :
    ∀ (l : List α) (out : List β), l.mapM f = some out →
      out.length = l.length ∧
      (∀ i : Nat, ∀ a : α, l[i]? = some a →
        ∃ b, f a = some b ∧ out[i]? = some b) ∧
      (∀ b ∈ out, ∃ a ∈ l, f a = some b)
  | [], out => by
      intro h
      simp only [List.mapM_nil, pure, Option.some.injEq] at h
      subst h
      refine ⟨rfl, ?_, ?_⟩
      · intro i a ha
        simp at ha
      · intro b hb
        simp at hb
  | a :: l, out => by
      intro h
      simp only [List.mapM_cons, pure, Option.bind_eq_bind, Option.bind_eq_some,
        Option.some.injEq] at h
      obtain ⟨b, hb, rest, hrest, hout⟩ := h
      obtain ⟨hlen, hidx, hmem⟩ := mapM_option_spec f l rest hrest
      subst hout
      refine ⟨by simp [hlen], ?_, ?_⟩
      · intro i x hx
        cases i with
        | zero =>
            simp only [List.getElem?_cons_zero, Option.some.injEq] at hx
            subst hx
            exact ⟨b, hb, by simp⟩
        | succ n =>
            simp only [List.getElem?_cons_succ] at hx ⊢
            exact hidx n x hx
      · intro y hy
        rcases List.mem_cons.mp hy with rfl | hy
        · exact ⟨a, List.mem_cons_self a l, hb⟩
        · obtain ⟨x, hx, hfx⟩ := hmem y hy
          exact ⟨x, List.mem_cons_of_mem a hx, hfx⟩

theorem main_delta_step_isSome_iff :
    ∀ cur prev : List SpreadObservation,
      (main_delta_step cur prev).isSome = true ↔ cur.length ≤ prev.length
  | [], prev => by simp [main_delta_step]
  | c :: cs, [] => by simp [main_delta_step]
  | c :: cs, p :: ps => by
      have ih := main_delta_step_isSome_iff cs ps
      simp only [main_delta_step, List.length_cons, Nat.succ_le_succ_iff]
      cases hmd : main_delta_step cs ps with
      | none => rw [hmd] at ih; simpa using ih
      | some rest => rw [hmd] at ih; simpa using ih

theorem main_delta_step_append :
    ∀ (cur p₁ p₂ : List SpreadObservation), cur.length ≤ p₁.length →
      main_delta_step cur (p₁ ++ p₂) = main_delta_step cur p₁
  | [], _, _, _ => rfl
  | c :: cs, [], p₂, h => by simp at h
  | c :: cs, p :: ps, p₂, h => by
      simp only [List.cons_append, main_delta_step]
      congr 1
      exact main_delta_step_append cs ps p₂ (Nat.le_of_succ_le_succ h)

theorem main_delta_step_pairing_aux :
    ∀ (cur prev out : List SpreadObservation),
      main_delta_step cur prev = some out →
      out.length = cur.length ∧
      ∀ (i : Nat) (c p : SpreadObservation), cur[i]? = some c → prev[i]? = some p →
        out[i]? = some { c with delta := some (PyDecimal.abs (PyDecimal.sub c.value p.value)) }
  | [], prev, out => by
      intro h
      simp only [main_delta_step, Option.some.injEq] at h
      subst h
      refine ⟨rfl, ?_⟩
      intro i c p hc
      simp at hc
  | c :: cs, [], out => by
      intro h
      simp [main_delta_step] at h
  | c :: cs, p :: ps, out => by
      intro h
      simp only [main_delta_step] at h
      cases hmd : main_delta_step cs ps with
      | none => rw [hmd] at h; simp at h
      | some rest =>
          rw [hmd] at h
          simp only [Option.map_some', Option.some.injEq] at h
          subst h
          obtain ⟨hlen, hidx⟩ := main_delta_step_pairing_aux cs ps rest hmd
          refine ⟨by simp [hlen], ?_⟩
          intro i x y hx hy
          cases i with
          | zero =>
              simp only [List.getElem?_cons_zero, Option.some.injEq] at hx hy
              subst hx
              subst hy
              simp
          | succ n =>
              simp only [List.getElem?_cons_succ] at hx hy ⊢
              exact hidx n x y hx hy

/-- C1: on an order book whose bid and ask lists yield different product-sums
(asks total 2, bids total 15), the code emits the SAME value for the bid and
the ask entry, both computed from the ask list; the snapshot's bid list would
give 15. -/
theorem notional_bid_and_ask_both_from_asks :
    (get_top_total_notional_value_by_symbols
        (fun _ => { asks := [("2", "1")], bids := [("3", "5")] }) ["X"] =
      some [{ symbol := "X", type := "bid", value := ⟨2, 0⟩ },
            { symbol := "X", type := "ask", value := ⟨2, 0⟩ }]) ∧
    cast_orders_tuple_to_decimal ("3", "5") = some (⟨3, 0⟩, ⟨5, 0⟩) ∧
    count_notional_value (sort_orders_by_price [(⟨3, 0⟩, ⟨5, 0⟩)]) = ⟨15, 0⟩ := by
  decide

/-- C2: the delta pass pairs the current entry at index `i` with the previous
entry at the same index `i` and sets `delta = |current[i] - previous[i]|`. -/
theorem main_delta_step_index_pairing (cur prev out : List SpreadObservation)
    (h : main_delta_step cur prev = some out) :
    out.length = cur.length ∧
    ∀ (i : Nat) (c p : SpreadObservation), cur[i]? = some c → prev[i]? = some p →
      out[i]? = some { c with delta := some (PyDecimal.abs (PyDecimal.sub c.value p.value)) } :=
  main_delta_step_pairing_aux cur prev out h

theorem main_delta_step_index_pairing_witness :
    main_delta_step
        [⟨"A", ⟨15, 1⟩, none⟩, ⟨"B", ⟨25, 1⟩, none⟩]
        [⟨"A", ⟨10, 1⟩, none⟩, ⟨"B", ⟨20, 1⟩, none⟩] =
      some [⟨"A", ⟨15, 1⟩, some ⟨5, 1⟩⟩, ⟨"B", ⟨25, 1⟩, some ⟨5, 1⟩⟩] ∧
    ([⟨"A", ⟨15, 1⟩, some ⟨5, 1⟩⟩, ⟨"B", ⟨25, 1⟩, some ⟨5, 1⟩⟩] :
        List SpreadObservation)[0]? =
      some { symbol := "A", value := ⟨15, 1⟩,
             delta := some (PyDecimal.abs (PyDecimal.sub ⟨15, 1⟩ ⟨10, 1⟩)) } ∧
    ([⟨"A", ⟨15, 1⟩, some ⟨5, 1⟩⟩, ⟨"B", ⟨25, 1⟩, some ⟨5, 1⟩⟩] :
        List SpreadObservation)[1]? =
      some { symbol := "B", value := ⟨25, 1⟩,
             delta := some (PyDecimal.abs (PyDecimal.sub ⟨25, 1⟩ ⟨20, 1⟩)) } :=
by
  have hp := main_delta_step_index_pairing
    [⟨"A", ⟨15, 1⟩, none⟩, ⟨"B", ⟨25, 1⟩, none⟩]
    [⟨"A", ⟨10, 1⟩, none⟩, ⟨"B", ⟨20, 1⟩, none⟩]
    [⟨"A", ⟨15, 1⟩, some ⟨5, 1⟩⟩, ⟨"B", ⟨25, 1⟩, some ⟨5, 1⟩⟩] (by decide)
  refine ⟨by decide, ?_, ?_⟩
  · exact hp.2 0 ⟨"A", ⟨15, 1⟩, none⟩ ⟨"A", ⟨10, 1⟩, none⟩ rfl rfl
  · exact hp.2 1 ⟨"B", ⟨25, 1⟩, none⟩ ⟨"B", ⟨20, 1⟩, none⟩ rfl rfl

/-- C4: the ask-side notional on the spec's two-entry ask book is the exact
decimal product-sum 0.0002999999999999 (coefficient 2999999999999, scale 16);
decimal multiplication and addition in this embedding are exact rational
arithmetic; a side longer than 200 entries is summed over exactly 200.  The
bid entry, however, also carries the ask-side sum (the bid list [("1","1")]
would give 1). -/
theorem notional_exact_decimal_and_cap :
    (get_top_total_notional_value_by_symbols
        (fun _ => { asks := [("10000.00000001", "0.00000001"),
                            ("9999.99999999", "0.00000002")],
                    bids := [("1", "1")] }) ["BTCUSDT"] =
      some [{ symbol := "BTCUSDT", type := "bid", value := ⟨2999999999999, 16⟩ },
            { symbol := "BTCUSDT", type := "ask", value := ⟨2999999999999, 16⟩ }]) ∧
    PyDecimal.toRat ⟨2999999999999, 16⟩ = (2999999999999 : ℚ) / 10 ^ 16 ∧
    (∀ a b : PyDecimal, (PyDecimal.mul a b).toRat = a.toRat * b.toRat) ∧
    (∀ a b : PyDecimal, (PyDecimal.add a b).toRat = a.toRat + b.toRat) ∧
    count_notional_value (sort_orders_by_price [(⟨1, 0⟩, ⟨1, 0⟩)]) = ⟨1, 0⟩ ∧
    ∀ l : List (PyDecimal × PyDecimal), 200 ≤ l.length →
      (sort_orders_by_price l).length = 200 := by
  refine ⟨by decide, rfl, PyDecimal.toRat_mul, PyDecimal.toRat_add, by decide, ?_⟩
  intro l h
  unfold sort_orders_by_price
  rw [List.length_take, List.length_insertionSort]
  exact Nat.min_eq_left h

theorem notional_exact_decimal_and_cap_witness :
    (sort_orders_by_price (List.replicate 300 (⟨1, 0⟩, ⟨1, 0⟩))).length = 200 :=
  notional_exact_decimal_and_cap.2.2.2.2.2 _ (by rw [List.length_replicate]; omega)

/-- C7 counterexample: the plain report line for "BTCUSDT" and
Decimal("123.456") is not "BTCUSDT: 123.456000" (the code pads symbol+":" to
width 9, the print separator adds a second space, and Decimal `:f` keeps the
parsed scale, printing "123.456"). -/
theorem print_formatted_plain_line_counterexample :
    print_formatted_plain_line "BTCUSDT" ⟨123456, 3⟩ ≠ "BTCUSDT: 123.456000" := by
  decide

/-- C7 amended: the symbol with ':' appended is left-aligned and padded to 9
characters, a single separator space follows, then the value in fixed-point
with its own scale; "BTCUSDT" with Decimal("123.456") renders as
"BTCUSDT:  123.456". -/
theorem print_formatted_plain_line_amended :
    print_formatted_plain_line "BTCUSDT" ⟨123456, 3⟩ = "BTCUSDT:  123.456" ∧
    ∀ (symbol : String) (value : PyDecimal), symbol.length + 1 < 9 →
      print_formatted_plain_line symbol value =
        symbol ++ ":" ++ String.mk (List.replicate (9 - (symbol.length + 1)) ' ') ++
          " " ++ value.formatF := by
  refine ⟨by decide, ?_⟩
  intro symbol value h
  have hlen : (symbol ++ ":").length = symbol.length + 1 := by
    rw [String.length_append]
    rfl
  unfold print_formatted_plain_line formatAlign9
  rw [if_pos (by rw [hlen]; exact h), hlen]

theorem print_formatted_plain_line_amended_witness :
    print_formatted_plain_line "ETHBTC" ⟨5, 1⟩ =
      "ETHBTC" ++ ":" ++ String.mk (List.replicate (9 - ("ETHBTC".length + 1)) ' ') ++
        " " ++ PyDecimal.formatF ⟨5, 1⟩ :=
  print_formatted_plain_line_amended.2 "ETHBTC" ⟨5, 1⟩ (by decide)

/-- C8 counterexample: a 304 response (not 2xx) with a parseable body is
returned successfully - `raise_for_status` only raises for 4xx/5xx, so the
claim's "raises iff non-2xx or unparseable" fails at status 304. -/
theorem safe_request_counterexample_304 :
    safe_request { status := 304, jsonBody := some (0 : Nat) } = Except.ok 0 ∧
    ¬ (200 ≤ 304 ∧ 304 < 300) :=
  ⟨rfl, by decide⟩

/-- C8 amended: `safe_request` fails exactly when the status is 4xx/5xx or
the body is not parseable, and returns the parsed body on any 2xx status. -/
theorem safe_request_error_iff (α : Type) (r : HttpResponse α) :
    ((∃ e, safe_request r = Except.error e) ↔
      (400 ≤ r.status ∧ r.status < 600) ∨ r.jsonBody = none) ∧
    ∀ b : α, 200 ≤ r.status → r.status < 300 → r.jsonBody = some b →
      safe_request r = Except.ok b := by
  constructor
  · unfold safe_request
    by_cases h : raise_for_status_raises r.status = true
    · have h' : 400 ≤ r.status ∧ r.status < 600 := by
        simpa [raise_for_status_raises] using h
      simp [h, h']
    · have h' : ¬ (400 ≤ r.status ∧ r.status < 600) := by
        simpa [raise_for_status_raises] using h
      cases hb : r.jsonBody with
      | some b => simp [h, h', hb]
      | none => simp [h, h', hb]
  · intro b h1 h2 hb
    have h : raise_for_status_raises r.status = false := by
      simp only [raise_for_status_raises, Bool.and_eq_false_iff]
      left
      simp
      omega
    unfold safe_request
    rw [h, hb]
    simp

theorem safe_request_error_iff_witness :
    safe_request { status := 200, jsonBody := some 7 } = Except.ok 7 ∧
    ∃ e, safe_request { status := 404, jsonBody := some (7 : Nat) } = Except.error e :=
  ⟨(safe_request_error_iff Nat { status := 200, jsonBody := some 7 }).2 7
      (by decide) (by decide) rfl,
   (safe_request_error_iff Nat { status := 404, jsonBody := some 7 }).1.mpr
      (Or.inl (by decide))⟩

/-- C9: the delta pass succeeds exactly when the current sequence is no
longer than the previous one, and when the current sequence is shorter, the
trailing previous entries are ignored (they do not affect the result). -/
theorem main_delta_step_totality_and_trailing
    (cur prev p₁ p₂ : List SpreadObservation) (h : cur.length ≤ p₁.length) :
    ((main_delta_step cur prev).isSome = true ↔ cur.length ≤ prev.length) ∧
    main_delta_step cur (p₁ ++ p₂) = main_delta_step cur p₁ :=
  ⟨main_delta_step_isSome_iff cur prev, main_delta_step_append cur p₁ p₂ h⟩

theorem main_delta_step_totality_and_trailing_witness :
    ((main_delta_step
        [{ symbol := "A", value := ⟨1, 0⟩, delta := none }]
        [{ symbol := "A", value := ⟨2, 0⟩, delta := none },
         { symbol := "B", value := ⟨3, 0⟩, delta := none }]).isSome = true ↔
      (1 : Nat) ≤ 2) ∧
    main_delta_step
        [{ symbol := "A", value := ⟨1, 0⟩, delta := none }]
        ([{ symbol := "A", value := ⟨2, 0⟩, delta := none }] ++
         [{ symbol := "B", value := ⟨3, 0⟩, delta := none }]) =
      main_delta_step
        [{ symbol := "A", value := ⟨1, 0⟩, delta := none }]
        [{ symbol := "A", value := ⟨2, 0⟩, delta := none }] := by
  have h := main_delta_step_totality_and_trailing
    [{ symbol := "A", value := ⟨1, 0⟩, delta := none }]
    [{ symbol := "A", value := ⟨2, 0⟩, delta := none },
     { symbol := "B", value := ⟨3, 0⟩, delta := none }]
    [{ symbol := "A", value := ⟨2, 0⟩, delta := none }]
    [{ symbol := "B", value := ⟨3, 0⟩, delta := none }]
    (by decide)
  exact h

theorem spread_entry_symbol {r : BookTickerRecord} {o : SpreadObservation}
    (h : spread_entry r = some o) : o.symbol = r.symbol := by
  unfold spread_entry at h
  cases ha : PyDecimal.ofString r.askPrice with
  | none => rw [ha] at h; simp at h
  | some a =>
      cases hb : PyDecimal.ofString r.bidPrice with
      | none => rw [ha, hb] at h; simp at h
      | some b =>
          rw [ha, hb] at h
          simp only [Option.some_bind, Option.map_some', Option.some.injEq] at h
          rw [← h]

theorem map_symbol_filter (p : String → Bool) :
    ∀ l : List BookTickerRecord,
      (l.filter (fun x => p x.symbol)).map (fun x => x.symbol) =
        (l.map (fun x => x.symbol)).filter p
  | [] => rfl
  | x :: xs => by
      cases hp : p x.symbol <;>
        simp [List.filter_cons, List.map_cons, hp, map_symbol_filter p xs]

theorem collect_missing_field_none (names : List String) (top_by : String)
    (t : Ticker) (hfield : t.getField top_by = none) :
    ∀ tickers : List Ticker, t ∈ tickers → names.contains t.symbol = true →
      collectTopByValues names top_by tickers = none := by
  intro tickers
  induction tickers with
  | nil => intro ht _; exact absurd ht (List.not_mem_nil t)
  | cons a rest ih =>
      intro ht hmem
      rcases List.mem_cons.mp ht with rfl | ht'
      · have hmem' : t.symbol ∈ names := by simpa using hmem
        simp [collectTopByValues, hmem', hfield]
      · cases hc : names.contains a.symbol with
        | false =>
            have hc' : a.symbol ∉ names := by simpa using hc
            simp [collectTopByValues, hc', ih ht' hmem]
        | true =>
            have hc' : a.symbol ∈ names := by simpa using hc
            cases hv : (a.getField top_by).bind PyDecimal.ofString with
            | none => simp [collectTopByValues, hc', hv]
            | some v => simp [collectTopByValues, hc', hv, ih ht' hmem]

/-- C5: if the ranking field is missing from some ticker record that passes
the quote-asset filter, the whole ranking call fails (KeyError), with no
silent skip and no partial result. -/
theorem get_top_symbols_missing_field_fails
    (exchange_info : List ExchangeInfoSymbol) (tickers : List Ticker)
    (quote_asset : String) (top : Nat) (top_by : String) (t : Ticker)
    (ht : t ∈ tickers)
    (hmem : ((get_symbols_by_quote_asset exchange_info quote_asset).map
        (fun x => x.symbol)).contains t.symbol = true)
    (hfield : t.getField top_by = none) :
    get_top_symbols_by_quote_asset_by exchange_info tickers quote_asset top top_by =
      none := by
  have hc := collect_missing_field_none _ top_by t hfield tickers ht hmem
  simp [get_top_symbols_by_quote_asset_by, hc]

theorem get_top_symbols_missing_field_fails_witness :
    get_top_symbols_by_quote_asset_by
      [⟨"AAABTC", "BTC"⟩] [⟨"AAABTC", [("lastPrice", "1")]⟩] "BTC" 5 "volume" =
      none :=
  get_top_symbols_missing_field_fails
    [⟨"AAABTC", "BTC"⟩] [⟨"AAABTC", [("lastPrice", "1")]⟩] "BTC" 5 "volume"
    ⟨"AAABTC", [("lastPrice", "1")]⟩ (by decide) (by decide) (by decide)

/-- C6: the spread computation returns one observation per book-ticker
record whose symbol is in the requested set, in fetch order; each value is
`Decimal(askPrice) - Decimal(bidPrice)`, an exact decimal difference. -/
theorem get_price_spread_spec
    (book_ticker : List BookTickerRecord) (symbols : List String)
    (out : List SpreadObservation)
    (h : get_price_spread_by_symbols book_ticker symbols = some out) :
    out.length = (book_ticker.filter (fun x => symbols.contains x.symbol)).length ∧
    (∀ (i : Nat) (r : BookTickerRecord),
      (book_ticker.filter (fun x => symbols.contains x.symbol))[i]? = some r →
      ∃ a b : PyDecimal,
        PyDecimal.ofString r.askPrice = some a ∧
        PyDecimal.ofString r.bidPrice = some b ∧
        (PyDecimal.sub a b).toRat = a.toRat - b.toRat ∧
        out[i]? = some { symbol := r.symbol, value := PyDecimal.sub a b, delta := none }) ∧
    out.map (fun o => o.symbol) =
      (book_ticker.map (fun r => r.symbol)).filter (fun s => symbols.contains s) := by
  unfold get_price_spread_by_symbols at h
  obtain ⟨hlen, hidx, -⟩ := mapM_option_spec spread_entry _ out h
  refine ⟨hlen, ?_, ?_⟩
  · intro i r hr
    obtain ⟨o, ho, hout⟩ := hidx i r hr
    unfold spread_entry at ho
    cases ha : PyDecimal.ofString r.askPrice with
    | none => rw [ha] at ho; simp at ho
    | some a =>
        cases hb : PyDecimal.ofString r.bidPrice with
        | none => rw [ha, hb] at ho; simp at ho
        | some b =>
            rw [ha, hb] at ho
            simp only [Option.some_bind, Option.map_some', Option.some.injEq] at ho
            exact ⟨a, b, rfl, rfl, PyDecimal.toRat_sub a b, by rw [← ho] at hout; exact hout⟩
  · rw [← map_symbol_filter]
    apply List.ext_getElem?
    intro i
    rw [List.getElem?_map, List.getElem?_map]
    cases hL : (book_ticker.filter (fun x => symbols.contains x.symbol))[i]? with
    | none =>
        have hli : (book_ticker.filter (fun x => symbols.contains x.symbol)).length ≤ i :=
          List.getElem?_eq_none_iff.mp hL
        have : out[i]? = none := List.getElem?_eq_none_iff.mpr (hlen ▸ hli)
        rw [this]
        rfl
    | some r =>
        obtain ⟨o, ho, hout⟩ := hidx i r hL
        rw [hout]
        simp [spread_entry_symbol ho]

theorem get_price_spread_spec_witness :
    ∃ out : List SpreadObservation,
      get_price_spread_by_symbols
        [⟨"BTCUSDT", "99.5", "100"⟩, ⟨"XRPBTC", "1", "2"⟩] ["BTCUSDT"] = some out ∧
      out.length = 1 ∧
      out.map (fun o => o.symbol) = ["BTCUSDT"] := by
  have h := get_price_spread_spec
    [⟨"BTCUSDT", "99.5", "100"⟩, ⟨"XRPBTC", "1", "2"⟩] ["BTCUSDT"]
    [⟨"BTCUSDT", ⟨5, 1⟩, none⟩] (by decide)
  exact ⟨[⟨"BTCUSDT", ⟨5, 1⟩, none⟩], by decide, by simp [h.1], by simp [h.2.2]⟩

/-- C10: a requested symbol with no matching book-ticker record never causes
a failure: it is silently dropped (the result is unchanged by requesting it,
and no output entry carries it), so the output may be shorter than the
symbol set. -/
theorem get_price_spread_absent_symbol
    (book_ticker : List BookTickerRecord) (symbols : List String) (s : String)
    (hs : ∀ r ∈ book_ticker, r.symbol ≠ s) :
    get_price_spread_by_symbols book_ticker (s :: symbols) =
      get_price_spread_by_symbols book_ticker symbols ∧
    ∀ out, get_price_spread_by_symbols book_ticker (s :: symbols) = some out →
      ∀ o ∈ out, o.symbol ≠ s := by
  have hfilter : book_ticker.filter (fun x => (s :: symbols).contains x.symbol) =
      book_ticker.filter (fun x => symbols.contains x.symbol) := by
    apply List.filter_congr
    intro x hx
    simp [List.contains_cons, hs x hx]
  constructor
  · unfold get_price_spread_by_symbols
    rw [hfilter]
  · intro out hout o ho
    unfold get_price_spread_by_symbols at hout
    obtain ⟨-, -, hmem⟩ := mapM_option_spec spread_entry _ out hout
    obtain ⟨r, hr, hro⟩ := hmem o ho
    rw [spread_entry_symbol hro]
    exact hs r (List.mem_of_mem_filter hr)

theorem get_price_spread_absent_symbol_witness :
    (get_price_spread_by_symbols [⟨"ETHUSDT", "1", "2"⟩] ["BTCUSDT"] =
      get_price_spread_by_symbols [⟨"ETHUSDT", "1", "2"⟩] []) ∧
    ∀ out, get_price_spread_by_symbols [⟨"ETHUSDT", "1", "2"⟩] ["BTCUSDT"] = some out →
      ∀ o ∈ out, o.symbol ≠ "BTCUSDT" :=
  get_price_spread_absent_symbol [⟨"ETHUSDT", "1", "2"⟩] [] "BTCUSDT" (by decide)

/-- C3: the ranking returns the quote-asset-matching records sorted
descending by the exact decimal value of the chosen field (stable: ties keep
original ticker order, expressed by filter-to-a-tie-class being preserved in
order), truncated to `min top (number of matching records)`; and the
selection really is the TOP of the matching records: the matching records
split (up to permutation) into the output and a remainder every record of
which has value less than or equal to every output record's value.  A pure
function of its inputs, so repeated calls agree by construction. -/
theorem get_top_symbols_sorted_stable_truncated
    (exchange_info : List ExchangeInfoSymbol) (tickers : List Ticker)
    (quote_asset : String) (top : Nat) (top_by : String)
    (matched : List RankedSymbol)
    (hm : collectTopByValues
        ((get_symbols_by_quote_asset exchange_info quote_asset).map (fun x => x.symbol))
        top_by tickers = some matched) :
    ∃ out : List RankedSymbol,
      get_top_symbols_by_quote_asset_by exchange_info tickers quote_asset top top_by =
        some out ∧
      out.length = min top matched.length ∧
      List.Sorted rankDesc out ∧
      (∀ v : ℚ, out.filter (fun x => decide (x.value.toRat = v)) <+:
        matched.filter (fun x => decide (x.value.toRat = v))) ∧
      (∀ x ∈ out, x ∈ matched) ∧
      ∃ rest : List RankedSymbol,
        matched.Perm (out ++ rest) ∧
        ∀ x ∈ rest, ∀ y ∈ out, x.value.toRat ≤ y.value.toRat := by
  refine ⟨(matched.insertionSort rankDesc).take top, ?_, ?_, ?_, ?_, ?_,
    (matched.insertionSort rankDesc).drop top, ?_, ?_⟩
  · simp [get_top_symbols_by_quote_asset_by, hm]
  · rw [List.length_take, List.length_insertionSort]
  · exact (List.sorted_insertionSort rankDesc matched).sublist (List.take_sublist top _)
  · intro v
    have hp : ∀ x y : RankedSymbol, (decide (x.value.toRat = v)) = true →
        (decide (y.value.toRat = v)) = true → rankDesc x y := by
      intro x y hx hy
      unfold rankDesc
      rw [PyDecimal.le_iff_toRat, of_decide_eq_true hx, of_decide_eq_true hy]
    have hpre := isPrefix_filter (fun x : RankedSymbol => decide (x.value.toRat = v))
      (take_isPrefixOf top (matched.insertionSort rankDesc))
    rwa [filter_insertionSort_of_key rankDesc _ hp matched] at hpre
  · intro x hx
    exact (List.mem_insertionSort rankDesc).mp ((List.take_sublist top _).subset hx)
  · rw [List.take_append_drop]
    exact (List.perm_insertionSort rankDesc matched).symm
  · intro x hx y hy
    have hs : List.Pairwise rankDesc
        ((matched.insertionSort rankDesc).take top ++
          (matched.insertionSort rankDesc).drop top) := by
      rw [List.take_append_drop]
      exact List.sorted_insertionSort rankDesc matched
    have hyx : rankDesc y x := (List.pairwise_append.mp hs).2.2 y hy x hx
    rw [← PyDecimal.le_iff_toRat]
    exact hyx

theorem get_top_symbols_sorted_stable_truncated_witness :
    get_top_symbols_by_quote_asset_by
      [⟨"U100", "USDT"⟩, ⟨"U50", "USDT"⟩, ⟨"U75", "USDT"⟩, ⟨"XBTC", "BTC"⟩]
      [⟨"U100", [("volume", "100")]⟩, ⟨"U50", [("volume", "50")]⟩,
       ⟨"U75", [("volume", "75")]⟩, ⟨"XBTC", [("volume", "999")]⟩]
      "USDT" 2 "volume" =
      some [⟨"U100", ⟨100, 0⟩⟩, ⟨"U75", ⟨75, 0⟩⟩] ∧
    ∃ out : List RankedSymbol,
      get_top_symbols_by_quote_asset_by
        [⟨"U100", "USDT"⟩, ⟨"U50", "USDT"⟩, ⟨"U75", "USDT"⟩, ⟨"XBTC", "BTC"⟩]
        [⟨"U100", [("volume", "100")]⟩, ⟨"U50", [("volume", "50")]⟩,
         ⟨"U75", [("volume", "75")]⟩, ⟨"XBTC", [("volume", "999")]⟩]
        "USDT" 2 "volume" = some out ∧
      out.length = min 2 ([⟨"U100", ⟨100, 0⟩⟩, ⟨"U50", ⟨50, 0⟩⟩,
        ⟨"U75", ⟨75, 0⟩⟩] : List RankedSymbol).length ∧
      List.Sorted rankDesc out ∧
      (∀ v : ℚ, out.filter (fun x => decide (x.value.toRat = v)) <+:
        ([⟨"U100", ⟨100, 0⟩⟩, ⟨"U50", ⟨50, 0⟩⟩, ⟨"U75", ⟨75, 0⟩⟩] :
          List RankedSymbol).filter (fun x => decide (x.value.toRat = v))) ∧
      (∀ x ∈ out, x ∈ ([⟨"U100", ⟨100, 0⟩⟩, ⟨"U50", ⟨50, 0⟩⟩, ⟨"U75", ⟨75, 0⟩⟩] :
        List RankedSymbol)) ∧
      ∃ rest : List RankedSymbol,
        ([⟨"U100", ⟨100, 0⟩⟩, ⟨"U50", ⟨50, 0⟩⟩, ⟨"U75", ⟨75, 0⟩⟩] :
          List RankedSymbol).Perm (out ++ rest) ∧
        ∀ x ∈ rest, ∀ y ∈ out, x.value.toRat ≤ y.value.toRat :=
  ⟨by decide,
   get_top_symbols_sorted_stable_truncated
    [⟨"U100", "USDT"⟩, ⟨"U50", "USDT"⟩, ⟨"U75", "USDT"⟩, ⟨"XBTC", "BTC"⟩]
    [⟨"U100", [("volume", "100")]⟩, ⟨"U50", [("volume", "50")]⟩,
     ⟨"U75", [("volume", "75")]⟩, ⟨"XBTC", [("volume", "999")]⟩]
    "USDT" 2 "volume"
    [⟨"U100", ⟨100, 0⟩⟩, ⟨"U50", ⟨50, 0⟩⟩, ⟨"U75", ⟨75, 0⟩⟩] (by decide)⟩
